import Mathlib

/-!
Verification of the core of `pgp-sign-artifact-action`: the file-selection
engine (`FindFiles`, `findWithGlobstar`, `shouldExclude`), the signing
abstraction (`SignOptions`, `getOutputExtension`, `getOutputPath`, the two
signer variants' mode dispatch) and the orchestration loop of `run`.

The Go source is embedded shallowly:

* machine strings are Lean `String`s (lists of characters); the relevant
  functions from Go's `strings` and `path/filepath` packages
  (`TrimSpace`, `Split`, `ReplaceAll`, `Join`, `Clean`, `Rel`, `Base`,
  `Match`, `Glob`, `Walk`) are re-implemented below following the Go
  standard-library algorithms;
* the filesystem is an explicit value (`FS`): a list of regular-file paths
  and a list of directory paths; `os.Stat` and `filepath.Walk` are read off
  that value;
* the external cryptographic engine (gopenpgp) is an opaque capability: key
  parsing and the three signature constructors are parameters, and the key
  lock/unlock discipline is modelled by `KeyM` following the documented
  behaviour of `crypto.Key.Unlock` / `crypto.Key.IsLocked`;
* fallible Go functions return `Except`/`Option`.
-/

/-! ### SignOptions and output-extension derivation (signer.go) -/

/-- `SignOptions` from `signer.go`: the three independent signing flags. -/
structure SignOptions where
  Armor : Bool
  DetachSign : Bool
  ClearSign : Bool
deriving DecidableEq, Repr

/-- `getOutputExtension` from `signer.go` (lines 34-49), transliterated. -/
def getOutputExtension (opts : SignOptions) : String :=
  if opts.ClearSign then ".asc"
  else if opts.Armor then ".asc"
  else if opts.DetachSign then ".sig"
  else ".gpg"

/-- `GoPGPSigner.getOutputPath` from `signer_gnupg.go` (lines 219-231). -/
def getOutputPath (filePath : String) (opts : SignOptions) : String :=
  let ext := getOutputExtension opts
  if opts.DetachSign then filePath ++ ext
  else if opts.ClearSign then filePath ++ ".asc"
  else filePath ++ ext

/-! ### Signing-mode dispatch of the two backends -/

/-- The three effective signing modes. -/
inductive SignMode where
  | detached
  | cleartext
  | attached
deriving DecidableEq, Repr

/-- The mode chosen by the branch structure of `GoPGPSigner.SignFile`
(`signer_gnupg.go` lines 136-142): `DetachSign` first, then `ClearSign`,
else inline/attached. -/
def gopgpSignMode (opts : SignOptions) : SignMode :=
  if opts.DetachSign then .detached
  else if opts.ClearSign then .cleartext
  else .attached

/-- Whether the signature bytes produced by the library backend are
ASCII-armored: `createDetachedSignature` and `createInlineSignature` pick
`crypto.Armor` exactly when `opts.Armor` is set, while
`createClearSignature` calls `SignCleartext`, whose output format is
armored by definition. -/
def gopgpArmoredOut (opts : SignOptions) : Bool :=
  match gopgpSignMode opts with
  | .detached => opts.Armor
  | .cleartext => true
  | .attached => opts.Armor

/-- `GnuPGSigner.buildArgs` from `signer_gnupg.go` (lines 57-77),
transliterated.  The signer's stored passphrase is passed explicitly. -/
def buildArgs (passphrase : String) (opts : SignOptions) : List String :=
  let args := ["--batch", "--yes"]
  let args := if passphrase ≠ "" then
    args ++ ["--pinentry-mode", "loopback", "--passphrase-fd", "0"] else args
  let args := if opts.Armor then args ++ ["--armor"] else args
  if opts.DetachSign then args ++ ["--detach-sign"]
  else if opts.ClearSign then args ++ ["--clear-sign"]
  else args ++ ["--sign"]

/-- The signing mode an argument vector asks GnuPG for, read off the flag
that `buildArgs` appended. -/
def gnupgModeOf (args : List String) : SignMode :=
  if args.contains "--detach-sign" then .detached
  else if args.contains "--clear-sign" then .cleartext
  else .attached

/-- Modelled from the spec: the signing-mode precedence of §4.2 — detached
if detached-signature is requested, else clear-text if clear-signature is
requested, else inline. -/
def specSigningMode (opts : SignOptions) : SignMode :=
  if opts.DetachSign then .detached
  else if opts.ClearSign then .cleartext
  else .attached

/-! ### The library-backed signer (signer_gnupg.go, GoPGPSigner) -/

/-- Model of a gopenpgp private key at the interface used by
`NewGoPGPSigner`: whether it is a private key, the passphrase it is
protected with (if any), and whether it is currently locked.
`crypto.Key.Unlock` succeeds exactly on the protecting passphrase of a
locked key, and `crypto.Key.IsLocked` reports the lock state. -/
structure KeyM where
  isPrivate : Bool
  protPass : Option String
  locked : Bool
deriving DecidableEq, Repr

/-- `crypto.Key.Unlock`: unlocking a locked key with its protecting
passphrase yields the unlocked key; any other combination fails. -/
def unlockKey (k : KeyM) (pass : String) : Except Unit KeyM :=
  if k.locked then
    match k.protPass with
    | some q => if q = pass then .ok { k with locked := false } else .error ()
    | none => .error ()
  else .error ()

/-- The distinct error kinds surfaced by `NewGoPGPSigner`. -/
inductive GoPGPError where
  | parseFailed
  | notPrivate
  | unlockFailed
  | lockedNoPass
deriving DecidableEq, Repr

/-- `NewGoPGPSigner` from `signer_gnupg.go` (lines 93-123).  The armored-key
parse (`crypto.NewKeyFromArmored`) is external, so its outcome is taken as
an `Option KeyM` argument.  The unlock attempt happens only when a
passphrase was supplied; afterwards the lock state is checked. -/
def newGoPGPSigner (parsed : Option KeyM) (passphrase : String) :
    Except GoPGPError KeyM :=
  match parsed with
  | none => .error .parseFailed
  | some key =>
    if !key.isPrivate then .error .notPrivate
    else
      match (if passphrase ≠ "" then unlockKey key passphrase else .ok key) with
      | .error _ => .error .unlockFailed
      | .ok key2 =>
        if key2.locked then .error .lockedNoPass
        else .ok key2

/-- A constructed signer: either the library-backed one holding the parsed
key, or the external-process one holding the passphrase (the key was
imported into the external trust store). -/
inductive SignerM where
  | gopgp (key : KeyM)
  | gnupg (passphrase : String)
deriving DecidableEq, Repr

/-- `NewSigner` from `signer.go` (lines 22-31).  `parse` models
`crypto.NewKeyFromArmored` and `importOk` models `importGPGKey`; both are
consulted only by the branch for their backend. -/
def newSigner (parse : String → Option KeyM) (importOk : String → Bool)
    (backend privateKey passphrase : String) : Except String SignerM :=
  if backend = "gopgp" then
    match newGoPGPSigner (parse privateKey) passphrase with
    | .error _ => .error "failed to create signer"
    | .ok k => .ok (.gopgp k)
  else if backend = "gnupg" then
    if importOk privateKey then .ok (.gnupg passphrase)
    else .error "failed to import GPG key"
  else .error ("unknown signer backend: " ++ backend)

/-! ### GoPGPSigner.SignFile as a filesystem transformer (for claim C8)

The disk is an association list from paths to file contents; `os.ReadFile`
is `List.lookup` and `os.WriteFile` conses the new binding.  The three
signature constructors of the crypto engine are parameters. -/

/-- `GoPGPSigner.SignFile` from `signer_gnupg.go` (lines 126-154): read the
input, dispatch on the options letting the crypto engine build the
signature bytes, then write them to the derived output path. -/
def signFileGo (disk : List (String × String))
    (mkDetached : String → Bool → Option String)
    (mkClear : String → Option String)
    (mkAttached : String → Bool → Option String)
    (filePath : String) (opts : SignOptions) :
    Except String (List (String × String)) :=
  match disk.lookup filePath with
  | none => .error "failed to read file"
  | some data =>
    let sig? : Option String :=
      if opts.DetachSign then mkDetached data opts.Armor
      else if opts.ClearSign then mkClear data
      else mkAttached data opts.Armor
    match sig? with
    | none => .error "failed to create signature"
    | some sig => .ok ((getOutputPath filePath opts, sig) :: disk)

/-! ### The orchestration loop of `run` (for claim C3) -/

/-- Outcome of the signing loop of `run`: which files got their artifact
written, which files `SignFile` was invoked on, and the error (if any) as
`run` wraps it. -/
structure RunOutcome where
  signed : List String
  attempted : List String
  err : Option String
deriving DecidableEq, Repr

/-- The per-file loop at the end of `run` (main source, lines 384-390):
sign each found file in order; the first failure is wrapped as
`failed to sign file <path>: <cause>` and aborts the iteration.  `sign`
yields `none` on success and the cause on failure. -/
def signLoop (sign : String → Option String) : List String → RunOutcome
  | [] => ⟨[], [], none⟩
  | f :: rest =>
    match sign f with
    | some cause =>
      ⟨[], [f], some ("failed to sign file " ++ f ++ ": " ++ cause)⟩
    | none =>
      let o := signLoop sign rest
      ⟨f :: o.signed, f :: o.attempted, o.err⟩

/-! ### String utilities (Go `strings` package)

All string manipulation is done on the character list underlying a
`String`, so that everything reduces well in the kernel. -/

/-- The ASCII whitespace characters recognised by `strings.TrimSpace`. -/
def isSpaceGo (c : Char) : Bool :=
  c = ' ' || c = '\t' || c = '\n' || c = '\x0b' || c = '\x0c' || c = '\r'

/-- `strings.TrimSpace` (ASCII fragment; the claims never use Unicode
spaces). -/
def goTrimSpace (s : String) : String :=
  ⟨((s.data.dropWhile isSpaceGo).reverse.dropWhile isSpaceGo).reverse⟩

/-- First occurrence of `sep` in `s`: the part before it and the part
after it. -/
def findSplit (sep : List Char) : List Char → Option (List Char × List Char)
  | [] => none
  | c :: cs =>
    if sep.isPrefixOf (c :: cs) then some ([], (c :: cs).drop sep.length)
    else
      match findSplit sep cs with
      | none => none
      | some (pre, post) => some (c :: pre, post)

/-- `strings.Split` with a non-empty separator (fuelled; the fuel in
`splitOnL` always suffices because every hit consumes at least one
character). -/
def splitOnAux (sep : List Char) : Nat → List Char → List (List Char)
  | 0, s => [s]
  | fuel + 1, s =>
    match findSplit sep s with
    | none => [s]
    | some (pre, post) => pre :: splitOnAux sep fuel post

/-- `strings.Split s sep` over character lists (`sep` non-empty). -/
def splitOnL (sep s : List Char) : List (List Char) :=
  splitOnAux sep (s.length + 1) s

/-- `strings.Split` on strings. -/
def splitOnS (s sep : String) : List String :=
  (splitOnL sep.data s.data).map fun l => ⟨l⟩

/-- `strings.ReplaceAll` over character lists. -/
def replaceAllL (sep repl s : List Char) : List Char :=
  List.intercalate repl (splitOnL sep s)

/-- `strings.ReplaceAll` on strings. -/
def replaceAllS (s sep repl : String) : String :=
  ⟨replaceAllL sep.data repl.data s.data⟩

/-- `strings.HasPrefix`. -/
def strStartsWith (s pre : String) : Bool :=
  pre.data.isPrefixOf s.data

/-- `strings.HasSuffix`. -/
def strEndsWith (s sfx : String) : Bool :=
  sfx.data.isSuffixOf s.data

/-- `strings.TrimSuffix s "/"`. -/
def trimSlashSuffix (s : String) : String :=
  if strEndsWith s "/" then ⟨s.data.dropLast⟩ else s

/-- `strings.TrimPrefix s "/"`. -/
def trimSlashPrefix (s : String) : String :=
  if strStartsWith s "/" then ⟨s.data.drop 1⟩ else s

/-- Whether the pattern contains the recursive wildcard `**`
(`strings.Contains(pattern, "**")`). -/
def hasGlobstarL : List Char → Bool
  | '*' :: '*' :: _ => true
  | _ :: r => hasGlobstarL r
  | [] => false

/-- `strings.Contains(s, "**")` on strings. -/
def hasGlobstarS (s : String) : Bool := hasGlobstarL s.data

/-! ### Path utilities (Go `path/filepath` package, `/` separator) -/

/-- One step of `filepath.Clean`: fold the components, resolving `.` and
`..`.  `acc` holds the output components in reverse. -/
def cleanCore (abs : Bool) : List String → List String → List String
  | acc, [] => acc.reverse
  | acc, c :: cs =>
    if c = "" ∨ c = "." then cleanCore abs acc cs
    else if c = ".." then
      match acc with
      | [] => cleanCore abs (if abs then [] else [".."]) cs
      | a :: rest =>
        if a = ".." then cleanCore abs (c :: a :: rest) cs
        else cleanCore abs rest cs
    else cleanCore abs (c :: acc) cs

/-- `filepath.Clean` for `/`-separated paths. -/
def goClean (p : String) : String :=
  let abs := strStartsWith p "/"
  let comps := cleanCore abs [] (splitOnS p "/")
  if abs then "/" ++ String.intercalate "/" comps
  else if comps = [] then "." else String.intercalate "/" comps

/-- `filepath.Join` of two elements: empty elements are dropped and the
result is cleaned. -/
def goJoin (a b : String) : String :=
  if a = "" ∧ b = "" then ""
  else if a = "" then goClean b
  else if b = "" then goClean a
  else goClean (a ++ "/" ++ b)

/-- `filepath.Base`. -/
def goBase (p : String) : String :=
  if p = "" then "."
  else
    let q := (p.data.reverse.dropWhile (· = '/')).reverse
    if q = [] then "/"
    else ⟨(q.reverse.takeWhile (· ≠ '/')).reverse⟩

/-- The path components of a cleaned path, without root/`.` markers. -/
def compsOf (s : String) : List String :=
  (splitOnS s "/").filter fun c => c ≠ "" ∧ c ≠ "."

/-- Strip the common leading components of two component lists. -/
def dropCommon : List String → List String → List String × List String
  | a :: as, b :: bs => if a = b then dropCommon as bs else (a :: as, b :: bs)
  | as, bs => (as, bs)

/-- `filepath.Rel base targ`: `none` models the error return (mixed
absolute/relative paths, or a remaining `..` in the base). -/
def goRel (base targ : String) : Option String :=
  let b := goClean base
  let t := goClean targ
  if b = t then some "."
  else if strStartsWith b "/" ≠ strStartsWith t "/" then none
  else
    let (br, tr) := dropCommon (compsOf b) (compsOf t)
    match br with
    | ".." :: _ => none
    | _ =>
      let out := br.map (fun _ => "..") ++ tr
      if out = [] then some "." else some (String.intercalate "/" out)

/-! ### Go's `path/filepath.Match` glob matcher

Transliteration of the Go standard-library matcher: `scanChunk`,
`matchChunk`, `getEsc` and the main loop of `Match`.  An `Except`-error
models `ErrBadPattern`.  Loops whose progress the equation compiler cannot
see are given explicit fuel; every wrapper passes enough fuel that
exhaustion is unreachable (each iteration consumes at least one character
of the fuelled argument). -/

/-- Leading `*`s of a pattern chunk (first loop of Go's `scanChunk`). -/
def dropStars : List Char → Bool × List Char
  | '*' :: r => (true, (dropStars r).2)
  | p => (false, p)

/-- The scan loop of Go's `scanChunk`: cut the pattern at the next
top-level `*`, tracking `[...]` ranges and `\`-escapes. -/
def scanBody : Bool → List Char → List Char × List Char
  | _, [] => ([], [])
  | inrange, c :: r =>
    if c = '\\' then
      match r with
      | [] => ([c], [])
      | d :: r2 =>
        let (tail, rest) := scanBody inrange r2
        (c :: d :: tail, rest)
    else if c = '[' then
      let (tail, rest) := scanBody true r
      (c :: tail, rest)
    else if c = ']' then
      let (tail, rest) := scanBody false r
      (c :: tail, rest)
    else if c = '*' then
      if inrange then
        let (tail, rest) := scanBody inrange r
        (c :: tail, rest)
      else ([], c :: r)
    else
      let (tail, rest) := scanBody inrange r
      (c :: tail, rest)

/-- Go's `scanChunk`: `(star, chunk, rest)`. -/
def scanChunk (p : List Char) : Bool × List Char × List Char :=
  let (star, p2) := dropStars p
  let (chunk, rest) := scanBody false p2
  (star, chunk, rest)

/-- Go's `getEsc`: read one (possibly escaped) character of a `[...]`
range; errors on malformed classes. -/
def getEsc : List Char → Except Unit (Char × List Char)
  | [] => .error ()
  | c :: rest =>
    if c = '-' ∨ c = ']' then .error ()
    else if c = '\\' then
      match rest with
      | [] => .error ()
      | d :: rest2 => if rest2 = [] then .error () else .ok (d, rest2)
    else if rest = [] then .error () else .ok (c, rest)

/-- The range-parsing loop inside Go's `matchChunk` for a `[...]` class:
returns whether any range matched `r` and the rest of the chunk. -/
def rangeLoop : Nat → Char → Bool → Nat → List Char → Except Unit (Bool × List Char)
  | 0, _, _, _, _ => .error ()
  | fuel + 1, r, acc, nrange, chunk =>
    match chunk with
    | ']' :: rest =>
      if nrange > 0 then .ok (acc, rest)
      else .error ()
    | _ =>
      match getEsc chunk with
      | .error _ => .error ()
      | .ok (lo, ch2) =>
        match ch2 with
        | '-' :: ch3 =>
          match getEsc ch3 with
          | .error _ => .error ()
          | .ok (hi, ch4) =>
            rangeLoop fuel r (acc || decide (lo ≤ r ∧ r ≤ hi)) (nrange + 1) ch4
        | _ =>
          rangeLoop fuel r (acc || decide (lo ≤ r ∧ r ≤ lo)) (nrange + 1) ch2

/-- Go's `matchChunk` with its `failed` flag: `.ok (some t)` is a match
leaving `t`, `.ok none` a clean mismatch, `.error` a bad pattern. -/
def matchChunkCore : Nat → List Char → List Char → Bool → Except Unit (Option (List Char))
  | 0, _, _, _ => .error ()
  | _ + 1, [], s, failed => if failed then .ok none else .ok (some s)
  | fuel + 1, c :: ch, s, failed0 =>
    let failed := failed0 || s.isEmpty
    if c = '[' then
      let r := if failed then Char.ofNat 0 else s.headD (Char.ofNat 0)
      let s2 := if failed then s else s.tail
      let negch : Bool × List Char :=
        match ch with
        | '^' :: t => (true, t)
        | _ => (false, ch)
      match rangeLoop (negch.2.length + 1) r false 0 negch.2 with
      | .error _ => .error ()
      | .ok (matched, ch3) =>
        matchChunkCore fuel ch3 s2 (failed || (matched == negch.1))
    else if c = '?' then
      if failed then matchChunkCore fuel ch s failed
      else
        match s with
        | [] => matchChunkCore fuel ch s failed
        | d :: s2 => matchChunkCore fuel ch s2 (failed || (d == '/'))
    else if c = '\\' then
      match ch with
      | [] => .error ()
      | d :: ch2 =>
        if failed then matchChunkCore fuel ch2 s failed
        else
          match s with
          | [] => matchChunkCore fuel ch2 s failed
          | e :: s2 => matchChunkCore fuel ch2 s2 (failed || (d != e))
    else
      if failed then matchChunkCore fuel ch s failed
      else
        match s with
        | [] => matchChunkCore fuel ch s failed
        | e :: s2 => matchChunkCore fuel ch s2 (failed || (c != e))

/-- `matchChunk` with adequate fuel (one unit per chunk character). -/
def matchChunkF (chunk s : List Char) : Except Unit (Option (List Char)) :=
  matchChunkCore (chunk.length + 1) chunk s false

/-- The retry loop of `Match` after a starred chunk: advance through the
name (never across a separator) looking for a position where the chunk
matches. -/
def starIter (chunk rest : List Char) : List Char → Except Unit (Option (List Char))
  | [] => .ok none
  | c :: s2 =>
    if c = '/' then .ok none
    else
      match matchChunkF chunk s2 with
      | .ok (some t) =>
        if rest = [] ∧ t ≠ [] then starIter chunk rest s2 else .ok (some t)
      | .ok none => starIter chunk rest s2
      | .error _ => .error ()

/-- The final loop of `Match`: before returning `false`, the rest of the
pattern must still be syntactically valid. -/
def chunksOk : Nat → List Char → Bool
  | 0, _ => false
  | _ + 1, [] => true
  | fuel + 1, p =>
    let scut := scanChunk p
    match matchChunkF scut.2.1 scut.2.1 with
    | .error _ => false
    | .ok _ => chunksOk fuel scut.2.2

/-- The main loop of Go's `Match`. -/
def goMatchCore : Nat → List Char → List Char → Except Unit Bool
  | 0, _, _ => .error ()
  | fuel + 1, pat, name =>
    match pat with
    | [] => .ok name.isEmpty
    | _ :: _ =>
      let scut := scanChunk pat
      let star := scut.1
      let chunk := scut.2.1
      let rest := scut.2.2
      if star ∧ chunk = [] then .ok (!(name.contains '/'))
      else
        match matchChunkF chunk name with
        | .error _ => .error ()
        | .ok (some t) =>
          if t = [] ∨ rest ≠ [] then goMatchCore fuel rest t
          else if star then
            match starIter chunk rest name with
            | .error _ => .error ()
            | .ok (some t2) => goMatchCore fuel rest t2
            | .ok none => if chunksOk (rest.length + 1) rest then .ok false else .error ()
          else if chunksOk (rest.length + 1) rest then .ok false else .error ()
        | .ok none =>
          if star then
            match starIter chunk rest name with
            | .error _ => .error ()
            | .ok (some t2) => goMatchCore fuel rest t2
            | .ok none => if chunksOk (rest.length + 1) rest then .ok false else .error ()
          else if chunksOk (rest.length + 1) rest then .ok false else .error ()

/-- `filepath.Match pattern name`: `.error` is `ErrBadPattern`. -/
def goMatchE (pat name : String) : Except Unit Bool :=
  goMatchCore (pat.length + 1) pat.data name.data

/-- `filepath.Match` with the error ignored (`matched, _ := Match(...)`):
a bad pattern simply does not match. -/
def matchB (pat s : String) : Bool :=
  match goMatchE pat s with
  | .ok b => b
  | .error _ => false

/-! ### Filesystem model and the file finder (the FileFinder source file) -/

/-- An immutable snapshot of the filesystem: the directories and the
regular files, each as a list of `/`-separated paths. -/
structure FS where
  dirs : List String
  files : List String
deriving Repr

/-- `os.Stat` followed by the `IsDir` check of `FindFiles`: `true` exactly
when the path exists and is a regular file (a stat failure and a directory
are both skipped). -/
def statIsFile (fs : FS) (p : String) : Bool :=
  if fs.dirs.contains p then false else fs.files.contains p

/-- Whether a path matches a glob pattern the way `filepath.Glob` matches
walked entries: component by component, each component matched with
`filepath.Match`. -/
def pathGlobMatch (pat p : String) : Bool :=
  let ps := splitOnS pat "/"
  let cs := splitOnS p "/"
  ps.length == cs.length &&
    (List.zip ps cs).all fun pc =>
      match goMatchE pc.1 pc.2 with
      | .ok true => true
      | _ => false

/-- The entries `filepath.Glob` returns on `fs` (directories included;
`FindFiles` drops them afterwards via `Stat`).  The real `Glob` sorts per
directory; the claims below do not depend on that order, and the model
returns matches in filesystem-listing order. -/
def globCandidates (fs : FS) (pat : String) : List String :=
  (fs.dirs ++ fs.files).filter (pathGlobMatch pat)

/-- `filepath.Glob`: a malformed pattern (rejected by `Match`) is
`ErrBadPattern`; otherwise the matching existing entries. -/
def goGlob (fs : FS) (pat : String) : Except Unit (List String) :=
  match goMatchE pat "" with
  | .error _ => .error ()
  | .ok _ => .ok (globCandidates fs pat)

/-- Whether `p` lies in the subtree rooted at `dir`. -/
def underDir (dir p : String) : Bool :=
  p == dir || strStartsWith p (dir ++ "/")

/-- The regular files `filepath.Walk` visits under `dir` (directories are
skipped by the walk function; unreadable entries are skipped silently). -/
def walkFilesList (fs : FS) (dir : String) : List String :=
  fs.files.filter (underDir dir)

/-- The body of the walk function in `findWithGlobstar`: an empty suffix
admits every file; otherwise match the suffix against the base name and,
failing that (mismatch or bad pattern), against the path relative to the
walked root, ignoring any error of the second match. -/
def walkAdmit (sfx searchDir p : String) : Bool :=
  if sfx = "" then true
  else
    match goMatchE sfx (goBase p) with
    | .ok true => true
    | _ =>
      match goMatchE sfx ((goRel searchDir p).getD "") with
      | .ok true => true
      | _ => false

/-- `findWithGlobstar` from the FileFinder source (lines 81-126): split on
`**`; with exactly two parts, walk `workDir/prefix` (or `workDir` when the
prefix is empty) and filter by the suffix; otherwise fall back to a plain
glob with every `**` replaced by `*`. -/
def findWithGlobstar (fs : FS) (workDir pattern : String) : Except Unit (List String) :=
  match splitOnS pattern "**" with
  | [a, b] =>
    let pre := trimSlashSuffix a
    let sfx := trimSlashPrefix b
    let searchDir := if pre = "" then workDir else goJoin workDir pre
    .ok ((walkFilesList fs searchDir).filter (walkAdmit sfx searchDir))
  | _ => goGlob fs (goJoin workDir (replaceAllS pattern "**" "*"))

/-- One exclude pattern (already trimmed, non-empty) tested against a file
under the four rules of `shouldExclude`: relative path, base name,
wildcard-stripped form of a `**` pattern against base name and relative
path, and the pattern joined with the working directory against the full
path. -/
def excludeHit (file workDir relPath exclude : String) : Bool :=
  matchB exclude relPath
  || matchB exclude (goBase file)
  || (hasGlobstarS exclude &&
      (let sp := replaceAllS (replaceAllS exclude "**/" "") "**" ""
       sp != "" && (matchB sp (goBase file) || matchB sp relPath)))
  || matchB (goJoin workDir exclude) file

/-- `shouldExclude` from the FileFinder source (lines 129-173). -/
def shouldExclude (file workDir : String) (excludes : List String) : Bool :=
  let relPath := (goRel workDir file).getD file
  excludes.any fun ex =>
    let e := goTrimSpace ex
    e != "" && excludeHit file workDir relPath e

/-- The per-match body of the `FindFiles` loops: skip seen paths, then
(in the non-globstar branch only) paths that fail `Stat` or are
directories, then excluded paths; everything else is appended and marked
seen.  Returns the appended paths in order and the updated seen set. -/
def addCandidates (fs : FS) (workDir : String) (excludes : List String)
    (checkStat : Bool) : List String → List String → List String × List String
  | [], seen => ([], seen)
  | c :: cs, seen =>
    if seen.contains c then addCandidates fs workDir excludes checkStat cs seen
    else if checkStat && !statIsFile fs c then
      addCandidates fs workDir excludes checkStat cs seen
    else if shouldExclude c workDir excludes then
      addCandidates fs workDir excludes checkStat cs seen
    else
      let r := addCandidates fs workDir excludes checkStat cs (c :: seen)
      (c :: r.1, r.2)

/-- The pattern loop of `DefaultFileFinder.FindFiles` (lines 27-75): trim
the pattern, skip it when empty, route `**` patterns through
`findWithGlobstar` (whose error is returned as-is) and the rest through
`filepath.Glob` (whose error is wrapped naming the pattern), and
accumulate the admitted matches. -/
def findFilesLoop (fs : FS) (workDir : String) (excludes : List String) :
    List String → List String → Except String (List String)
  | [], _ => .ok []
  | pat0 :: rest, seen =>
    let pat := goTrimSpace pat0
    if pat = "" then findFilesLoop fs workDir excludes rest seen
    else if hasGlobstarS pat then
      match findWithGlobstar fs workDir pat with
      | .error _ => .error "syntax error in pattern"
      | .ok files =>
        let r := addCandidates fs workDir excludes false files seen
        match findFilesLoop fs workDir excludes rest r.2 with
        | .error e => .error e
        | .ok more => .ok (r.1 ++ more)
    else
      match goGlob fs (goJoin workDir pat) with
      | .error _ =>
        .error ("invalid glob pattern \"" ++ pat ++ "\": syntax error in pattern")
      | .ok ms =>
        let r := addCandidates fs workDir excludes true ms seen
        match findFilesLoop fs workDir excludes rest r.2 with
        | .error e => .error e
        | .ok more => .ok (r.1 ++ more)

/-- The working-directory default of `FindFiles`: empty means `.`. -/
def effWorkDir (workDir : String) : String :=
  if workDir = "" then "." else workDir

/-- `DefaultFileFinder.FindFiles` (lines 19-78). -/
def findFiles (fs : FS) (workDir : String) (patterns excludes : List String) :
    Except String (List String) :=
  findFilesLoop fs (effWorkDir workDir) excludes patterns []

/-! ### Declarative companions used to state the selection claims -/

/-- Keep the first occurrence of every path not yet seen: the declarative
description of the `seen` map of `FindFiles`. -/
def dedupFirstAux (seen : List String) : List String → List String
  | [] => []
  | x :: xs =>
    if seen.contains x then dedupFirstAux seen xs
    else x :: dedupFirstAux (x :: seen) xs

/-- The seen set after processing a list of admitted candidates. -/
def seenAfter (seen : List String) (l : List String) : List String :=
  l.foldl (fun s x => if s.contains x then s else x :: s) seen

/-- The dedup-independent admission test of the `FindFiles` loops: the
stat/directory test (only in the non-globstar branch) and the exclusion
test. -/
def keepCandidate (fs : FS) (workDir : String) (excludes : List String)
    (checkStat : Bool) (c : String) : Bool :=
  (!checkStat || statIsFile fs c) && !shouldExclude c workDir excludes

/-- The candidates of one pattern that pass the admission test, in match
order, before deduplication. -/
def admittedOf (fs : FS) (workDir : String) (excludes : List String)
    (checkStat : Bool) (cs : List String) : List String :=
  cs.filter (keepCandidate fs workDir excludes checkStat)

/-- All admitted candidates of a pattern list merged in pattern order,
before deduplication: the stream `FindFiles` deduplicates. -/
def mergedCandidates (fs : FS) (workDir : String) (excludes : List String) :
    List String → List String
  | [] => []
  | pat0 :: rest =>
    let pat := goTrimSpace pat0
    (if pat = "" then []
     else if hasGlobstarS pat then
       match findWithGlobstar fs workDir pat with
       | .ok files => admittedOf fs workDir excludes false files
       | .error _ => []
     else
       match goGlob fs (goJoin workDir pat) with
       | .ok ms => admittedOf fs workDir excludes true ms
       | .error _ => []) ++ mergedCandidates fs workDir excludes rest

/-- Modelled from the spec (§4.1): how a pattern containing a recursive
wildcard is said to be resolved — split it at the recursive wildcard into
a literal prefix and a suffix, walk the subtree rooted at
`workDir/prefix`, and admit each regular file whose base name or, failing
that, path relative to the walked root matches the suffix (an empty
suffix admits every file).  Used to compare the spec's description with
`findWithGlobstar`. -/
def specGlobstarResolve (fs : FS) (workDir pattern : String) : List String :=
  match findSplit ['*', '*'] pattern.data with
  | none => []
  | some (a, b) =>
    let pre := trimSlashSuffix ⟨a⟩
    let sfx := trimSlashPrefix ⟨b⟩
    let searchDir := if pre = "" then workDir else goJoin workDir pre
    (walkFilesList fs searchDir).filter (walkAdmit sfx searchDir)

/-- A pattern the `FindFiles` loop handles without raising an error (used
to isolate the first failing pattern in the error claims). -/
def patternOk (fs : FS) (workDir pat0 : String) : Bool :=
  let pat := goTrimSpace pat0
  if pat = "" then true
  else if hasGlobstarS pat then
    match findWithGlobstar fs workDir pat with
    | .ok _ => true
    | .error _ => false
  else
    match goGlob fs (goJoin workDir pat) with
    | .ok _ => true
    | .error _ => false

/-- The root `findWithGlobstar` walks for a pattern whose part before the
recursive wildcard is `a`. -/
def gsSearchDir (workDir a : String) : String :=
  if trimSlashSuffix a = "" then workDir else goJoin workDir (trimSlashSuffix a)

/-- Example filesystem mirroring the layout of the repository's
`FindFiles` tests. -/
def exampleFS : FS :=
  ⟨["/w", "/w/subdir", "/w/dist"],
   ["/w/file1.txt", "/w/file2.txt", "/w/file.bin", "/w/data.json",
    "/w/subdir/file3.txt", "/w/subdir/file4.bin",
    "/w/dist/release.tar.gz", "/w/dist/release.sha256"]⟩

/-- Example filesystem with a single file. -/
def smallFS : FS := ⟨["/w"], ["/w/file.txt"]⟩

/-- Example filesystem with a nested file two directories deep. -/
def nestedFS : FS := ⟨["/w", "/w/a", "/w/a/b"], ["/w/a/b/c.txt"]⟩

/-! ## Theorems -/

/-- C1: for every combination of the three `SignOptions` booleans,
`getOutputExtension` returns exactly the extension of the §4.3 table:
`.asc` whenever clear-signature is set (whatever the other two flags),
otherwise `.asc` whenever armored-output is set, otherwise `.sig` when
detached-signature is set, otherwise `.gpg`. -/
theorem getOutputExtension_matches_table :
    (∀ a d, getOutputExtension ⟨a, d, true⟩ = ".asc")
  ∧ (∀ d, getOutputExtension ⟨true, d, false⟩ = ".asc")
  ∧ getOutputExtension ⟨false, true, false⟩ = ".sig"
  ∧ getOutputExtension ⟨false, false, false⟩ = ".gpg" := by
  refine ⟨?_, ?_, rfl, rfl⟩ <;> decide

/-- C2: both signing variants select the effective mode by the same
precedence — detached when `DetachSign` is set (`ClearSign` ignored),
else clear-text when `ClearSign` is set, else inline — the external
process is handed `--armor` exactly when `Armor` is set, and the library
variant's output is armored following `Armor` in the detached and inline
modes but unconditionally in clear-text mode. -/
theorem signing_mode_precedence (pass : String) (opts : SignOptions) :
    gnupgModeOf (buildArgs pass opts) = specSigningMode opts
  ∧ gopgpSignMode opts = specSigningMode opts
  ∧ (buildArgs pass opts).contains "--armor" = opts.Armor
  ∧ gopgpArmoredOut opts =
      (match specSigningMode opts with
       | .cleartext => true
       | _ => opts.Armor) := by
  obtain ⟨a, d, c⟩ := opts
  by_cases h : pass = "" <;>
    cases a <;> cases d <;> cases c <;>
      simp [buildArgs, gnupgModeOf, specSigningMode, gopgpSignMode,
        gopgpArmoredOut, h]

/-- C3: when the files resolve to `pre ++ fk :: post`, signing succeeds on
all of `pre` and fails on `fk`, the loop of `run` signs exactly `pre` in
order (their artifacts stay), invokes `SignFile` on `pre` and `fk` only
(never on `post`), and returns the failure wrapped with `fk`'s path. -/
theorem run_fail_fast (sign : String → Option String) (pre : List String)
    (fk : String) (post : List String) (cause : String)
    (hpre : ∀ f ∈ pre, sign f = none) (hfk : sign fk = some cause) :
    signLoop sign (pre ++ fk :: post) =
      ⟨pre, pre ++ [fk], some ("failed to sign file " ++ fk ++ ": " ++ cause)⟩ := by
  induction pre with
  | nil => simp [signLoop, hfk]
  | cons a as ih =>
    have ha : sign a = none := hpre a (by simp)
    have h2 := ih fun f hf => hpre f (by simp [hf])
    simp [signLoop, ha, h2]

/-- Witness for C3: three files where the second fails. -/
theorem run_fail_fast_witness :
    signLoop (fun f => if f = "b" then some "boom" else none) ["a", "b", "c"] =
      ⟨["a"], ["a", "b"], some "failed to sign file b: boom"⟩ := by
  have h := run_fail_fast (fun f => if f = "b" then some "boom" else none)
    ["a"] "b" ["c"] "boom" (by decide) (by decide)
  exact h.trans (by decide)

/-- C10: every backend selector other than `gopgp` and `gnupg` makes
`NewSigner` return the error naming the unknown backend and no signer,
independently of the key material and of the key parsing/import
capabilities (so neither is ever consulted). -/
theorem newSigner_unknown_backend (backend : String)
    (h1 : backend ≠ "gopgp") (h2 : backend ≠ "gnupg")
    (parse parse2 : String → Option KeyM) (importOk importOk2 : String → Bool)
    (key key2 pass pass2 : String) :
    newSigner parse importOk backend key pass =
      .error ("unknown signer backend: " ++ backend)
  ∧ newSigner parse importOk backend key pass =
      newSigner parse2 importOk2 backend key2 pass2 := by
  constructor <;> simp [newSigner, h1, h2]

/-- Witness for C10: the backend string `invalid` from the repository's
own test. -/
theorem newSigner_unknown_backend_witness :
    newSigner (fun _ => none) (fun _ => true) "invalid" "key" "" =
      .error ("unknown signer backend: " ++ "invalid") := by
  exact (newSigner_unknown_backend "invalid" (by decide) (by decide)
    (fun _ => none) (fun _ => none) (fun _ => true) (fun _ => true)
    "key" "key" "" "").1

/-- Appending a non-empty string changes a string. -/
theorem string_append_ne_self (s t : String) (h : t ≠ "") : s ++ t ≠ s := by
  intro he
  have hl := congrArg String.length he
  rw [String.length_append] at hl
  have h0 : t.length = 0 := by omega
  have ht : t = "" := by
    cases t with
    | mk d =>
      cases d with
      | nil => rfl
      | cons c cs => simp [String.length] at h0
  exact h ht

/-- The derived extension is never empty. -/
theorem getOutputExtension_ne_empty (opts : SignOptions) :
    getOutputExtension opts ≠ "" := by
  obtain ⟨a, d, c⟩ := opts
  cases a <;> cases d <;> cases c <;> decide

/-- `getOutputPath` always appends the derived extension to the original
path (its `ClearSign` arm writes `.asc` directly, which coincides with the
extension in that case). -/
theorem getOutputPath_eq_append (filePath : String) (opts : SignOptions) :
    getOutputPath filePath opts = filePath ++ getOutputExtension opts := by
  obtain ⟨a, d, c⟩ := opts
  cases a <;> cases d <;> cases c <;> rfl

/-- Looking a key up past a cons with a different key. -/
theorem lookup_cons_ne {β : Type} (k p : String) (v : β)
    (l : List (String × β)) (h : p ≠ k) :
    ((k, v) :: l).lookup p = l.lookup p := by
  have hb : (p == k) = false := by simp [h]
  simp [List.lookup, hb]

/-- C8: a successful `SignFile` writes exactly one new binding, at the
original path extended with the derived extension — a path always distinct
from the input — leaving the input file and every other path untouched. -/
theorem signFile_writes_one_new_file (disk : List (String × String))
    (mkDetached : String → Bool → Option String) (mkClear : String → Option String)
    (mkAttached : String → Bool → Option String) (filePath : String)
    (opts : SignOptions) (disk2 : List (String × String))
    (h : signFileGo disk mkDetached mkClear mkAttached filePath opts = .ok disk2) :
    getOutputPath filePath opts = filePath ++ getOutputExtension opts
  ∧ getOutputPath filePath opts ≠ filePath
  ∧ (∃ sig, disk2 = (getOutputPath filePath opts, sig) :: disk)
  ∧ disk2.lookup filePath = disk.lookup filePath
  ∧ (∀ p, p ≠ getOutputPath filePath opts → disk2.lookup p = disk.lookup p) := by
  have hne : getOutputPath filePath opts ≠ filePath := by
    rw [getOutputPath_eq_append]
    exact string_append_ne_self _ _ (getOutputExtension_ne_empty opts)
  simp only [signFileGo] at h
  split at h
  · simp at h
  · split at h
    · simp at h
    · rename_i sig hs
      injection h with h2
      subst h2
      refine ⟨getOutputPath_eq_append filePath opts, hne, ⟨sig, rfl⟩, ?_, ?_⟩
      · exact lookup_cons_ne _ _ _ _ (Ne.symm hne)
      · intro p hp
        exact lookup_cons_ne _ _ _ _ hp

/-- Witness for C8: signing one concrete file detached/armored writes
exactly the `.asc` sibling. -/
theorem signFile_writes_one_new_file_witness :
    signFileGo [("/w/f", "data")] (fun _ _ => some "SIG") (fun d => some d)
      (fun d _ => some d) "/w/f" ⟨true, true, false⟩ =
      .ok [("/w/f.asc", "SIG"), ("/w/f", "data")]
  ∧ getOutputPath "/w/f" ⟨true, true, false⟩ ≠ "/w/f" := by
  have h : signFileGo [("/w/f", "data")] (fun _ _ => some "SIG") (fun d => some d)
      (fun d _ => some d) "/w/f" ⟨true, true, false⟩ =
      .ok [("/w/f.asc", "SIG"), ("/w/f", "data")] := by rfl
  exact ⟨h, (signFile_writes_one_new_file _ _ _ _ _ _ _ h).2.1⟩

/-- C9: with a passphrase-protected private key, initialising the
library-backed signer with no passphrase fails with the locked-key error,
initialising it with a wrong passphrase fails with the unlock-failure
error, the two kinds are distinct, and any successful initialisation
yields an unlocked key. -/
theorem gopgp_key_lock_errors (secret pass : String)
    (hne : pass ≠ "") (hw : pass ≠ secret) :
    newGoPGPSigner (some ⟨true, some secret, true⟩) "" = .error .lockedNoPass
  ∧ newGoPGPSigner (some ⟨true, some secret, true⟩) pass = .error .unlockFailed
  ∧ GoPGPError.lockedNoPass ≠ GoPGPError.unlockFailed
  ∧ (∀ parsed p k2, newGoPGPSigner parsed p = .ok k2 → k2.locked = false) := by
  refine ⟨rfl, ?_, by decide, ?_⟩
  · have hw2 : ¬(secret = pass) := fun he => hw he.symm
    simp [newGoPGPSigner, unlockKey, hne, hw2]
  · intro parsed p k2 h
    match parsed with
    | none => simp [newGoPGPSigner] at h
    | some key =>
      simp only [newGoPGPSigner] at h
      split at h
      · simp at h
      · split at h
        · simp at h
        · split at h
          · simp at h
          · rename_i hl
            injection h with h2
            subst h2
            simpa using hl

/-! ### Dedup-first-seen machinery for the finder claims -/

/-- `seenAfter` over an empty candidate list. -/
theorem seenAfter_nil (seen : List String) : seenAfter seen [] = seen := rfl

/-- `seenAfter` over a cons. -/
theorem seenAfter_cons (seen : List String) (x : String) (l : List String) :
    seenAfter seen (x :: l) =
      seenAfter (if seen.contains x then seen else x :: seen) l := rfl

/-- Deduplication drops an already-seen head. -/
theorem dedupFirstAux_cons_mem (seen : List String) (x : String)
    (xs : List String) (h : seen.contains x = true) :
    dedupFirstAux seen (x :: xs) = dedupFirstAux seen xs := by
  have h2 : x ∈ seen := by simpa using h
  simp [dedupFirstAux, h2]

/-- Deduplication keeps an unseen head and marks it seen. -/
theorem dedupFirstAux_cons_not_mem (seen : List String) (x : String)
    (xs : List String) (h : seen.contains x = false) :
    dedupFirstAux seen (x :: xs) = x :: dedupFirstAux (x :: seen) xs := by
  have h2 : x ∉ seen := by simpa using h
  simp [dedupFirstAux, h2]

/-- Deduplication distributes over append, threading the seen set. -/
theorem dedupFirstAux_append (a : List String) : ∀ (seen b : List String),
    dedupFirstAux seen (a ++ b) =
      dedupFirstAux seen a ++ dedupFirstAux (seenAfter seen a) b := by
  induction a with
  | nil => intro seen b; simp [dedupFirstAux, seenAfter_nil]
  | cons x xs ih =>
    intro seen b
    by_cases h : seen.contains x = true
    · rw [List.cons_append, dedupFirstAux_cons_mem _ _ _ h, ih,
        dedupFirstAux_cons_mem _ _ _ h, seenAfter_cons, if_pos h]
    · have hf : seen.contains x = false := by simpa using h
      rw [List.cons_append, dedupFirstAux_cons_not_mem _ _ _ hf, ih,
        dedupFirstAux_cons_not_mem _ _ _ hf, List.cons_append, seenAfter_cons,
        if_neg h]

/-- The deduplicated list has no duplicates and avoids the seen set. -/
theorem dedupFirstAux_nodup (l : List String) : ∀ seen : List String,
    (dedupFirstAux seen l).Nodup ∧
      ∀ x ∈ dedupFirstAux seen l, x ∉ seen := by
  induction l with
  | nil => intro seen; simp [dedupFirstAux]
  | cons c cs ih =>
    intro seen
    by_cases h : seen.contains c = true
    · rw [dedupFirstAux_cons_mem _ _ _ h]
      exact ih seen
    · have hf : seen.contains c = false := by simpa using h
      rw [dedupFirstAux_cons_not_mem _ _ _ hf]
      have hc : c ∉ seen := by simpa using hf
      refine ⟨?_, ?_⟩
      · refine List.nodup_cons.mpr ⟨?_, (ih (c :: seen)).1⟩
        intro hmem
        exact (ih (c :: seen)).2 c hmem (by simp)
      · intro x hx hxs
        rcases List.mem_cons.mp hx with rfl | hx2
        · exact hc hxs
        · exact (ih (c :: seen)).2 x hx2 (by simp [hxs])

/-- Every element of the deduplicated list comes from the input list. -/
theorem mem_dedupFirstAux (l : List String) : ∀ (seen : List String)
    (x : String), x ∈ dedupFirstAux seen l → x ∈ l := by
  induction l with
  | nil => intro seen x hx; simp [dedupFirstAux] at hx
  | cons c cs ih =>
    intro seen x hx
    by_cases h : seen.contains c = true
    · rw [dedupFirstAux_cons_mem _ _ _ h] at hx
      exact List.mem_cons_of_mem _ (ih seen x hx)
    · have hf : seen.contains c = false := by simpa using h
      rw [dedupFirstAux_cons_not_mem _ _ _ hf] at hx
      rcases List.mem_cons.mp hx with rfl | hx2
      · exact List.mem_cons_self _ _
      · exact List.mem_cons_of_mem _ (ih (c :: seen) x hx2)

/-- The admitted candidates of a cons, kept head. -/
theorem admittedOf_cons_keep (fs : FS) (workDir : String)
    (excludes : List String) (b : Bool) (c : String) (cs : List String)
    (hk : keepCandidate fs workDir excludes b c = true) :
    admittedOf fs workDir excludes b (c :: cs) =
      c :: admittedOf fs workDir excludes b cs := by
  simp [admittedOf, List.filter_cons, hk]

/-- The admitted candidates of a cons, dropped head. -/
theorem admittedOf_cons_drop (fs : FS) (workDir : String)
    (excludes : List String) (b : Bool) (c : String) (cs : List String)
    (hk : keepCandidate fs workDir excludes b c = false) :
    admittedOf fs workDir excludes b (c :: cs) =
      admittedOf fs workDir excludes b cs := by
  simp [admittedOf, List.filter_cons, hk]

/-- The loop body `addCandidates` is deduplication of the admitted
candidates: the appended output keeps the first unseen occurrence of each
admitted candidate, and the seen set is advanced accordingly. -/
theorem addCandidates_spec (fs : FS) (workDir : String)
    (excludes : List String) (b : Bool) : ∀ (cs seen : List String),
    addCandidates fs workDir excludes b cs seen =
      (dedupFirstAux seen (admittedOf fs workDir excludes b cs),
       seenAfter seen (admittedOf fs workDir excludes b cs)) := by
  intro cs
  induction cs with
  | nil => intro seen; rfl
  | cons c cs ih =>
    intro seen
    simp only [addCandidates]
    by_cases h1 : seen.contains c = true
    · rw [if_pos h1, ih seen]
      by_cases h2 : keepCandidate fs workDir excludes b c = true
      · rw [admittedOf_cons_keep _ _ _ _ _ _ h2,
          dedupFirstAux_cons_mem _ _ _ h1, seenAfter_cons, if_pos h1]
      · have h2f : keepCandidate fs workDir excludes b c = false := by
          simpa using h2
        rw [admittedOf_cons_drop _ _ _ _ _ _ h2f]
    · rw [if_neg h1]
      have h1f : seen.contains c = false := by simpa using h1
      by_cases h2 : (b && !statIsFile fs c) = true
      · have hk : keepCandidate fs workDir excludes b c = false := by
          rw [Bool.and_eq_true] at h2
          obtain ⟨hb, hst⟩ := h2
          cases hs2 : statIsFile fs c
          · simp [keepCandidate, hb, hs2]
          · rw [hs2] at hst
            simp at hst
        rw [if_pos h2, ih seen, admittedOf_cons_drop _ _ _ _ _ _ hk]
      · rw [if_neg h2]
        by_cases h3 : shouldExclude c workDir excludes = true
        · have hk : keepCandidate fs workDir excludes b c = false := by
            simp [keepCandidate, h3]
          rw [if_pos h3, ih seen, admittedOf_cons_drop _ _ _ _ _ _ hk]
        · have hk : keepCandidate fs workDir excludes b c = true := by
            have h3f : shouldExclude c workDir excludes = false := by simpa using h3
            cases hb : b <;> cases hst : statIsFile fs c
            · simp [keepCandidate, hb, hst, h3f]
            · simp [keepCandidate, hb, hst, h3f]
            · exact absurd (by simp [hb, hst]) h2
            · simp [keepCandidate, hb, hst, h3f]
          rw [if_neg h3, ih (c :: seen), admittedOf_cons_keep _ _ _ _ _ _ hk,
            dedupFirstAux_cons_not_mem _ _ _ h1f, seenAfter_cons, if_neg h1]

/-- The whole pattern loop of `FindFiles` returns exactly the
first-seen-deduplicated merge of the per-pattern admitted candidates. -/
theorem findFilesLoop_spec (fs : FS) (workDir : String) (excludes : List String) :
    ∀ (pats seen res : List String),
    findFilesLoop fs workDir excludes pats seen = .ok res →
      res = dedupFirstAux seen (mergedCandidates fs workDir excludes pats) := by
  intro pats
  induction pats with
  | nil =>
    intro seen res h
    simp only [findFilesLoop] at h
    injection h with h2
    rw [← h2]
    rfl
  | cons pat0 rest ih =>
    intro seen res h
    by_cases he : goTrimSpace pat0 = ""
    · have h2 : findFilesLoop fs workDir excludes rest seen = .ok res := by
        simpa only [findFilesLoop, if_pos he] using h
      simp only [mergedCandidates, if_pos he, List.nil_append]
      exact ih seen res h2
    · by_cases hg : hasGlobstarS (goTrimSpace pat0) = true
      · rcases hfg : findWithGlobstar fs workDir (goTrimSpace pat0) with e | files
        · simp [findFilesLoop, he, hg, hfg] at h
        · rcases hrec : findFilesLoop fs workDir excludes rest
              (addCandidates fs workDir excludes false files seen).2 with e2 | more
          · simp [findFilesLoop, he, hg, hfg, hrec] at h
          · simp [findFilesLoop, he, hg, hfg, hrec] at h
            simp [mergedCandidates, he, hg, hfg]
            have hadd := addCandidates_spec fs workDir excludes false files seen
            have ha1 : (addCandidates fs workDir excludes false files seen).1 =
                dedupFirstAux seen (admittedOf fs workDir excludes false files) := by
              rw [hadd]
            have ha2 : (addCandidates fs workDir excludes false files seen).2 =
                seenAfter seen (admittedOf fs workDir excludes false files) := by
              rw [hadd]
            have hmore := ih _ more hrec
            rw [← h, dedupFirstAux_append, ← ha1, ← ha2, ← hmore]
      · rcases hgg : goGlob fs (goJoin workDir (goTrimSpace pat0)) with e | ms
        · simp [findFilesLoop, he, hg, hgg] at h
        · rcases hrec : findFilesLoop fs workDir excludes rest
              (addCandidates fs workDir excludes true ms seen).2 with e2 | more
          · simp [findFilesLoop, he, hg, hgg, hrec] at h
          · simp [findFilesLoop, he, hg, hgg, hrec] at h
            simp [mergedCandidates, he, hg, hgg]
            have hadd := addCandidates_spec fs workDir excludes true ms seen
            have ha1 : (addCandidates fs workDir excludes true ms seen).1 =
                dedupFirstAux seen (admittedOf fs workDir excludes true ms) := by
              rw [hadd]
            have ha2 : (addCandidates fs workDir excludes true ms seen).2 =
                seenAfter seen (admittedOf fs workDir excludes true ms) := by
              rw [hadd]
            have hmore := ih _ more hrec
            rw [← h, dedupFirstAux_append, ← ha1, ← ha2, ← hmore]

/-- An admitted candidate never matches any exclude pattern. -/
theorem admittedOf_not_excluded (fs : FS) (workDir : String)
    (excludes : List String) (b : Bool) (cs : List String) (p : String)
    (hp : p ∈ admittedOf fs workDir excludes b cs) :
    shouldExclude p workDir excludes = false := by
  have hk := (List.mem_filter.mp hp).2
  simp only [keepCandidate, Bool.and_eq_true] at hk
  simpa using hk.2

/-- No merged admitted candidate matches any exclude pattern. -/
theorem mergedCandidates_not_excluded (fs : FS) (workDir : String)
    (excludes : List String) : ∀ (pats : List String) (p : String),
    p ∈ mergedCandidates fs workDir excludes pats →
      shouldExclude p workDir excludes = false := by
  intro pats
  induction pats with
  | nil => intro p hp; simp [mergedCandidates] at hp
  | cons pat0 rest ih =>
    intro p hp
    simp only [mergedCandidates] at hp
    rcases List.mem_append.mp hp with h1 | h2
    · by_cases he : goTrimSpace pat0 = ""
      · simp [he] at h1
      · by_cases hg : hasGlobstarS (goTrimSpace pat0) = true
        · rcases hfg : findWithGlobstar fs workDir (goTrimSpace pat0) with e | files
          · simp [he, hg, hfg] at h1
          · simp only [he, hg, hfg, ite_true, ite_false, if_neg, if_pos] at h1
            have h1b : p ∈ admittedOf fs workDir excludes false files := by
              simpa [he, hg, hfg] using h1
            exact admittedOf_not_excluded _ _ _ _ _ _ h1b
        · rcases hgg : goGlob fs (goJoin workDir (goTrimSpace pat0)) with e | ms
          · simp [he, hg, hgg] at h1
          · have h1b : p ∈ admittedOf fs workDir excludes true ms := by
              simpa [he, hg, hgg] using h1
            exact admittedOf_not_excluded _ _ _ _ _ _ h1b
    · exact ih p h2

/-- C4: the list `FindFiles` returns is closed over exclusion — no
returned path matches any exclude pattern under any of the four matching
rules of `shouldExclude`, no matter how many include patterns matched
it. -/
theorem findFiles_exclusion_closed (fs : FS) (workDir : String)
    (patterns excludes res : List String)
    (h : findFiles fs workDir patterns excludes = .ok res) :
    ∀ p ∈ res, shouldExclude p (effWorkDir workDir) excludes = false := by
  intro p hp
  have h2 := findFilesLoop_spec fs (effWorkDir workDir) excludes patterns [] res h
  rw [h2] at hp
  exact mergedCandidates_not_excluded _ _ _ _ _ (mem_dedupFirstAux _ _ _ hp)

/-- Witness for C4: the end-to-end scenario of §8 — `dist/*` with exclude
`*.sha256` keeps only the tarball, which matches no exclude rule. -/
theorem findFiles_exclusion_closed_witness :
    findFiles exampleFS "/w" ["dist/*"] ["*.sha256"] =
      .ok ["/w/dist/release.tar.gz"]
  ∧ shouldExclude "/w/dist/release.tar.gz" (effWorkDir "/w") ["*.sha256"] = false := by
  have h : findFiles exampleFS "/w" ["dist/*"] ["*.sha256"] =
      .ok ["/w/dist/release.tar.gz"] := by rfl
  exact ⟨h, findFiles_exclusion_closed _ _ _ _ _ h _ (by simp)⟩

/-- C5: the list `FindFiles` returns never repeats a resolved path, and it
is exactly the merge of the per-pattern admitted matches in
include-pattern order with every later duplicate dropped, so the
surviving occurrence of each path is its first in merge order. -/
theorem findFiles_dedup_first_seen (fs : FS) (workDir : String)
    (patterns excludes res : List String)
    (h : findFiles fs workDir patterns excludes = .ok res) :
    res.Nodup ∧
      res = dedupFirstAux []
        (mergedCandidates fs (effWorkDir workDir) excludes patterns) := by
  have h2 := findFilesLoop_spec fs (effWorkDir workDir) excludes patterns [] res h
  refine ⟨?_, h2⟩
  rw [h2]
  exact (dedupFirstAux_nodup _ _).1

/-- Witness for C5: the deduplication example of §8 — three overlapping
patterns over one file yield a single entry, the first-seen merge. -/
theorem findFiles_dedup_first_seen_witness :
    findFiles smallFS "/w" ["*.txt", "file.*", "file.txt"] [] = .ok ["/w/file.txt"]
  ∧ (["/w/file.txt"] : List String).Nodup
  ∧ ["/w/file.txt"] = dedupFirstAux []
      (mergedCandidates smallFS (effWorkDir "/w") [] ["*.txt", "file.*", "file.txt"]) := by
  have h : findFiles smallFS "/w" ["*.txt", "file.*", "file.txt"] [] =
      .ok ["/w/file.txt"] := by rfl
  have h2 := findFiles_dedup_first_seen smallFS "/w" _ _ _ h
  exact ⟨h, h2.1, h2.2⟩

/-- The pattern loop fails on the first malformed plain (non-`**`) pattern
with an error naming it, whatever the seen set and later patterns. -/
theorem findFilesLoop_malformed (fs : FS) (workDir : String)
    (excludes post : List String) (p : String)
    (hne : goTrimSpace p ≠ "") (hng : hasGlobstarS (goTrimSpace p) = false)
    (hbad : goMatchE (goJoin workDir (goTrimSpace p)) "" = .error ()) :
    ∀ (pre seen : List String), (∀ q ∈ pre, patternOk fs workDir q = true) →
    findFilesLoop fs workDir excludes (pre ++ p :: post) seen =
      .error ("invalid glob pattern \"" ++ goTrimSpace p ++
        "\": syntax error in pattern") := by
  intro pre
  induction pre with
  | nil =>
    intro seen _
    simp only [List.nil_append, findFilesLoop]
    rw [if_neg hne]
    have hg2 : ¬hasGlobstarS (goTrimSpace p) = true := by simp [hng]
    rw [if_neg hg2]
    have hge : goGlob fs (goJoin workDir (goTrimSpace p)) = .error () := by
      simp [goGlob, hbad]
    simp [hge]
  | cons q pre ih =>
    intro seen hq
    have hqok : patternOk fs workDir q = true := hq q (by simp)
    simp only [List.cons_append, findFilesLoop]
    by_cases hqe : goTrimSpace q = ""
    · rw [if_pos hqe]
      exact ih seen fun r hr => hq r (by simp [hr])
    · rw [if_neg hqe]
      by_cases hqg : hasGlobstarS (goTrimSpace q) = true
      · rw [if_pos hqg]
        rcases hfg : findWithGlobstar fs workDir (goTrimSpace q) with e | files
        · exfalso
          simp [patternOk, hqe, hqg, hfg] at hqok
        · have hih := ih (addCandidates fs workDir excludes false files seen).2
            fun r hr => hq r (by simp [hr])
          simp [hih]
      · rw [if_neg hqg]
        rcases hgg : goGlob fs (goJoin workDir (goTrimSpace q)) with e | ms
        · exfalso
          simp [patternOk, hqe, hqg, hgg] at hqok
        · have hih := ih (addCandidates fs workDir excludes true ms seen).2
            fun r hr => hq r (by simp [hr])
          simp [hih]

/-- C6 (amended): a malformed include pattern without a recursive wildcard
— preceded by any patterns the loop handles without error — makes
`FindFiles` fail the whole resolution with an error naming the offending
pattern, and no file list is returned. -/
theorem findFiles_malformed_nonglobstar (fs : FS) (workDir : String)
    (excludes pre post : List String) (p : String)
    (hpre : ∀ q ∈ pre, patternOk fs (effWorkDir workDir) q = true)
    (hne : goTrimSpace p ≠ "")
    (hng : hasGlobstarS (goTrimSpace p) = false)
    (hbad : goMatchE (goJoin (effWorkDir workDir) (goTrimSpace p)) "" = .error ()) :
    findFiles fs workDir (pre ++ p :: post) excludes =
      .error ("invalid glob pattern \"" ++ goTrimSpace p ++
        "\": syntax error in pattern") :=
  findFilesLoop_malformed fs (effWorkDir workDir) excludes post p hne hng hbad
    pre [] hpre

/-- Witness for the amended C6: the malformed pattern `[`. -/
theorem findFiles_malformed_nonglobstar_witness :
    goMatchE (goJoin (effWorkDir "/w") (goTrimSpace "[")) "" = .error ()
  ∧ findFiles smallFS "/w" ["["] [] =
      .error ("invalid glob pattern \"" ++ goTrimSpace "[" ++
        "\": syntax error in pattern") := by
  have hbad : goMatchE (goJoin (effWorkDir "/w") (goTrimSpace "[")) "" =
      .error () := by rfl
  exact ⟨hbad, findFiles_malformed_nonglobstar smallFS "/w" [] [] [] "["
    (by simp) (by decide) (by decide) hbad⟩

/-- Counterexample to C6 as stated: the include pattern `**/[` is rejected
by the underlying glob syntax (`filepath.Glob` returns `ErrBadPattern` on
it), yet `FindFiles` does not fail — the walk branch swallows the match
error and the pattern silently matches nothing. -/
theorem findFiles_malformed_globstar_counterexample :
    goGlob smallFS "**/[" = .error ()
  ∧ findFiles smallFS "/w" ["**/["] [] = .ok [] :=
  ⟨rfl, rfl⟩

/-- The walk admission test accepts exactly the files whose base name or,
failing that, path relative to the walked root matches the suffix, every
file when the suffix is empty. -/
theorem walkAdmit_iff (sfx searchDir p : String) :
    walkAdmit sfx searchDir p = true ↔
      (sfx = "" ∨ goMatchE sfx (goBase p) = .ok true ∨
        goMatchE sfx ((goRel searchDir p).getD "") = .ok true) := by
  by_cases hs : sfx = ""
  · simp [walkAdmit, hs]
  · rcases hb : goMatchE sfx (goBase p) with e | v
    · rcases hr : goMatchE sfx ((goRel searchDir p).getD "") with e2 | v2
      · simp [walkAdmit, hs, hb, hr]
      · cases v2 <;> simp [walkAdmit, hs, hb, hr]
    · cases v
      · rcases hr : goMatchE sfx ((goRel searchDir p).getD "") with e2 | v2
        · simp [walkAdmit, hs, hb, hr]
        · cases v2 <;> simp [walkAdmit, hs, hb, hr]
      · simp [walkAdmit, hs, hb]

/-- C7 (amended): an include pattern splitting at the recursive wildcard
into exactly one prefix and one suffix is resolved by walking the subtree
rooted at `workDir/prefix` (or `workDir` for an empty prefix) and
admitting each regular file under it whose base name or, failing that,
path relative to the walked root matches the suffix; an empty suffix
admits every file.  (A pattern with more than one `**` takes the
single-level glob fallback instead — see the counterexample.) -/
theorem findWithGlobstar_walk_characterisation (fs : FS)
    (workDir pattern a b p : String)
    (hsplit : splitOnS pattern "**" = [a, b]) :
    findWithGlobstar fs workDir pattern =
      .ok ((walkFilesList fs (gsSearchDir workDir a)).filter
        (walkAdmit (trimSlashPrefix b) (gsSearchDir workDir a)))
  ∧ (p ∈ (walkFilesList fs (gsSearchDir workDir a)).filter
        (walkAdmit (trimSlashPrefix b) (gsSearchDir workDir a)) ↔
      p ∈ fs.files ∧ underDir (gsSearchDir workDir a) p = true ∧
        (trimSlashPrefix b = "" ∨
         goMatchE (trimSlashPrefix b) (goBase p) = .ok true ∨
         goMatchE (trimSlashPrefix b)
           ((goRel (gsSearchDir workDir a) p).getD "") = .ok true)) := by
  constructor
  · simp [findWithGlobstar, hsplit, gsSearchDir]
  · simp only [List.mem_filter, walkFilesList, walkAdmit_iff, and_assoc]

/-- Witness for the amended C7: `**/*.bin` walks the whole tree and admits
the two `.bin` files. -/
theorem findWithGlobstar_walk_characterisation_witness :
    splitOnS "**/*.bin" "**" = ["", "/*.bin"]
  ∧ findWithGlobstar exampleFS "/w" "**/*.bin" =
      .ok ["/w/file.bin", "/w/subdir/file4.bin"] := by
  have hsplit : splitOnS "**/*.bin" "**" = ["", "/*.bin"] := by rfl
  have h := (findWithGlobstar_walk_characterisation exampleFS "/w" "**/*.bin"
    "" "/*.bin" "/w/file.bin" hsplit).1
  exact ⟨hsplit, h.trans (by rfl)⟩

/-- Counterexample to C7 as stated: the pattern `**/b/**` contains a
recursive wildcard, but the code does not resolve it by the prefix/suffix
walk the spec describes — it falls back to a single-level glob with each
`**` replaced by `*`, admitting `/w/a/b/c.txt`, which the spec-described
walk resolution admits under no split of the pattern (the first-split
reading yields the empty set). -/
theorem findWithGlobstar_multi_wildcard_counterexample :
    hasGlobstarS "**/b/**" = true
  ∧ findWithGlobstar nestedFS "/w" "**/b/**" = .ok ["/w/a/b/c.txt"]
  ∧ specGlobstarResolve nestedFS "/w" "**/b/**" = [] :=
  ⟨rfl, rfl, rfl⟩

/-- Witness for C9: the passphrases of the repository's own signer tests
(`secret123` as protection, no passphrase and `wrongpass` as inputs). -/
theorem gopgp_key_lock_errors_witness :
    newGoPGPSigner (some ⟨true, some "secret123", true⟩) "" =
      .error .lockedNoPass
  ∧ newGoPGPSigner (some ⟨true, some "secret123", true⟩) "wrongpass" =
      .error .unlockFailed := by
  have h := gopgp_key_lock_errors "secret123" "wrongpass" (by decide) (by decide)
  exact ⟨h.1, h.2.1⟩
